import Mathlib

/-!
Verification of the VideoMirroring application (src/main.py) against its
natural-language specification.  The Python program is shallowly embedded:
frames are lists of pixel rows, the capture loop and the render step become
pure functions over an explicit session state, and the lock-protected shared
frame slot of the threaded pipeline is modelled by a small labelled transition
system with an explicit lock.
-/

namespace VideoMirror

/-! ## Frames and colour conversion -/

/-- A pixel: three colour channels (stored in channel order). -/
abbrev Pixel := ℕ × ℕ × ℕ

/-- One row of pixels. -/
abbrev Row := List Pixel

/-- A decoded image buffer: a list of pixel rows. -/
abbrev Frame := List Row

/-- BGR→RGB channel reorder on one pixel: swap the first and third channel,
as `cv2.cvtColor(frame, cv2.COLOR_BGR2RGB)` does pointwise (main.py line 215). -/
def bgr2rgbPixel (p : Pixel) : Pixel := (p.2.2, p.2.1, p.1)

/-- BGR→RGB channel reorder on a whole frame (main.py line 215). -/
def cvtColorBGR2RGB (f : Frame) : Frame := f.map (List.map bgr2rgbPixel)

/-- Modelled from the spec: the synchronous variant's horizontal mirror
(`flip about the vertical axis`) is not present under src/ (only the threaded
variant is); per the spec it reverses each pixel row of the frame. -/
def flipHorizontal (f : Frame) : Frame := f.map List.reverse

/-- Height of a frame, as `rgb.shape[0]` (main.py line 235). -/
def frameHeight (f : Frame) : ℤ := f.length

/-- Width of a frame, as `rgb.shape[1]` (main.py line 235). -/
def frameWidth (f : Frame) : ℤ := (f.headD []).length

/-! ## Scale-to-fit resize (main.py lines 234-245) -/

/-- Python's `int()` applied to a (rational-valued) number: truncation
toward zero. -/
def pyInt (q : ℚ) : ℤ := if 0 ≤ q then ⌊q⌋ else ⌈q⌉

/-- Outcome of the resize step of `update_display`: the frame dimensions
handed to the display widget and whether `cv2.resize` was invoked. -/
structure ResizeOut where
  width : ℤ
  height : ℤ
  resized : Bool
deriving DecidableEq

/-- The scale-to-fit computation of `update_display` (main.py lines 239-245):
if the widget has been laid out (both bounds `> 1`), scale by
`min(frame_width/w, frame_height/h)` and truncate the scaled dimensions with
`int()`; otherwise the frame is passed through unchanged with no resize. -/
def update_display_resize (w h frame_width frame_height : ℤ) : ResizeOut :=
  if 1 < frame_width ∧ 1 < frame_height then
    let scale : ℚ := min ((frame_width : ℚ) / (w : ℚ)) ((frame_height : ℚ) / (h : ℚ))
    ⟨pyInt ((w : ℚ) * scale), pyInt ((h : ℚ) * scale), true⟩
  else
    ⟨w, h, false⟩

/-! ## Session state, capture loop, render step -/

/-- The fields of `VideoMirrorApp` relevant to the frame pipeline:
the `running` flag, whether `self.cap` holds a capture handle, and the
shared latest-frame slot `self.current_frame` (main.py lines 112-118). -/
structure SessionState where
  running : Bool
  capOpen : Bool
  current_frame : Option Frame
deriving DecidableEq

/-- The state established by `__init__` (main.py lines 112-118):
not running, no capture handle, empty frame slot. -/
def initState : SessionState :=
  { running := false, capOpen := false, current_frame := none }

/-- One iteration of the capture-loop body (main.py lines 211-219).
The device read's result is passed in: `some frame` when `ret` is true,
`none` when the read fails.  On success the frame is converted BGR→RGB and
the shared slot is replaced under the lock; on failure nothing happens. -/
def capture_step (s : SessionState) (readResult : Option Frame) : SessionState :=
  match readResult with
  | some frame => { s with current_frame := some (cvtColorBGR2RGB frame) }
  | none => s

/-- A run of the capture loop over a list of device-read results. -/
def run_capture (s : SessionState) (reads : List (Option Frame)) : SessionState :=
  reads.foldl capture_step s

/-- The guard of the capture loop `while self.running` (main.py line 211). -/
def capture_loop_guard (s : SessionState) : Bool := s.running

/-- What one `update_display` tick does (main.py lines 221-255). -/
inductive RenderStep
  | stop
  | noFrameYet
  | displayed (out : ResizeOut)
deriving DecidableEq

/-- Whether a render tick reschedules itself via `root.after(5, ...)`:
the early `return` when not running does not; the no-frame branch and the
display branch do (main.py lines 223-224, 231, 255). -/
def reschedules : RenderStep → Bool
  | RenderStep.stop => false
  | RenderStep.noFrameYet => true
  | RenderStep.displayed _ => true

/-- One `update_display` tick (main.py lines 221-255): return immediately if
not running; reschedule-only if the slot is still empty; otherwise copy the
frame out under the lock and run the scale-to-fit resize against the current
widget bounds. -/
def update_display (s : SessionState) (fw fh : ℤ) : RenderStep :=
  if s.running = false then RenderStep.stop
  else
    match s.current_frame with
    | none => RenderStep.noFrameYet
    | some f => RenderStep.displayed (update_display_resize (frameWidth f) (frameHeight f) fw fh)

/-! ## Device enumeration (main.py lines 134-147) -/

/-- One interaction with the capture library during device probing:
`openDev i` is the constructor call `cv2.VideoCapture(i)`, `releaseDev i`
the matching `cap.release()`. -/
inductive CapAction
  | openDev (i : ℕ)
  | releaseDev (i : ℕ)
deriving DecidableEq

/-- The `available_cameras` list built by `detect_and_select_camera`
(main.py lines 137-147): for `i in range(6)`, append `i` when the probe
handle reports `isOpened()`.  The probe outcome of each index is the
environment parameter `opens`. -/
def detect_cameras (opens : ℕ → Bool) : List ℕ :=
  (List.range 6).foldl (fun acc i => if opens i then acc ++ [i] else acc) []

/-- The capture-library interactions of probing one index: the open attempt,
followed immediately by a release when the handle opened (main.py
lines 138-147; a handle that fails `isOpened()` is not explicitly released). -/
def probe_block (opens : ℕ → Bool) (i : ℕ) : List CapAction :=
  if opens i then [CapAction.openDev i, CapAction.releaseDev i]
  else [CapAction.openDev i]

/-- The full capture-library interaction trace of the probing loop. -/
def probe_actions (opens : ℕ → Bool) : List CapAction :=
  (List.range 6).foldl (fun acc i => acc ++ probe_block opens i) []

/-- The index probed by an open attempt (used to read the probing order
off a trace). -/
def probeIndex : CapAction → Option ℕ
  | CapAction.openDev i => some i
  | CapAction.releaseDev _ => none

/-! ## Startup control flow (main.py lines 134-207) -/

/-- Externally visible effects of the startup path: dialogs shown, capture
handles opened, the pipeline started, the Tk main loop quit. -/
inductive UiEffect
  | showError (msg : String)
  | askYesNo (msg : String)
  | showSelectionDialog
  | openCapture (i : ℕ)
  | startPipeline (i : ℕ)
  | quitApp
deriving DecidableEq

/-- The environment of one startup run: which probe indices open, whether the
chosen device opens for capture, the answer to the single-camera yes/no
prompt, and the selection-dialog result. -/
structure Env where
  opens : ℕ → Bool
  openCap : ℕ → Bool
  confirmSingle : Bool
  dialogResult : Option ℕ

/-- `start_mirror` (main.py lines 172-207): open the chosen device; on
failure report the error and quit; on success start the capture thread and
the display loop. -/
def start_mirror (env : Env) (cams : List ℕ) (camera_index : ℕ) : List UiEffect :=
  let camera_id := cams.getD camera_index 0
  if env.openCap camera_id then
    [UiEffect.openCapture camera_id, UiEffect.startPipeline camera_id]
  else
    [UiEffect.openCapture camera_id,
     UiEffect.showError ("Could not open camera " ++ toString camera_id),
     UiEffect.quitApp]

/-- The selection phase of `detect_and_select_camera` after probing
(main.py lines 149-170): empty list → error and quit; exactly one camera →
yes/no prompt; several cameras → selection dialog. -/
def detect_and_select_camera (env : Env) : List UiEffect :=
  let cams := detect_cameras env.opens
  if cams.isEmpty then
    [UiEffect.showError "No cameras detected!", UiEffect.quitApp]
  else if cams.length = 1 then
    UiEffect.askYesNo "Start Mirroring" ::
      (if env.confirmSingle then start_mirror env cams 0 else [UiEffect.quitApp])
  else
    UiEffect.showSelectionDialog ::
      (match env.dialogResult with
       | some idx => start_mirror env cams idx
       | none => [UiEffect.quitApp])

/-! ## Window close (main.py lines 257-261) -/

/-- The observable actions of `on_closing`, in program order. -/
inductive CloseEffect
  | setRunningFalse
  | releaseCap
  | destroyWindow
deriving DecidableEq

/-- `on_closing` (main.py lines 257-261): set `running = False`, release the
capture handle when `self.cap` is not `None`, destroy the window.  Returns
the new session state and the ordered action trace. -/
def on_closing (s : SessionState) : SessionState × List CloseEffect :=
  ({ s with running := false },
   CloseEffect.setRunningFalse ::
     (if s.capOpen then [CloseEffect.releaseCap, CloseEffect.destroyWindow]
      else [CloseEffect.destroyWindow]))

/-! ## The lock-protected latest-frame slot (main.py lines 217-219, 227-232)

A fine-grained model of the shared slot: the producer's store is decomposed
into row-sized sub-steps so that a torn (partially written) buffer is
representable, and both threads' critical sections are guarded by the
explicit lock, exactly as both accesses in the code sit inside
`with self.frame_lock`. -/

/-- The two threads of the threaded variant. -/
inductive Tid
  | producer
  | consumer
deriving DecidableEq

/-- Global configuration of the slot model: the slot, the lock owner, the
producer's in-progress store (frame being stored, rows already written), the
consumer's in-critical-section flag, plus two ghost histories: the frames the
producer has fully stored, and the copies the consumer has taken. -/
structure LockConfig where
  slot : Option Frame
  lock : Option Tid
  writing : Option (Frame × ℕ)
  reading : Bool
  written : List Frame
  observed : List (Option Frame)
deriving DecidableEq

/-- The initial configuration: empty slot, lock free, both threads outside
their critical sections, empty histories. -/
def initLock : LockConfig :=
  { slot := none, lock := none, writing := none, reading := false,
    written := [], observed := [] }

/-- Atomic actions of the slot model.  The producer acquires the lock, writes
its new frame row by row, and commits; the consumer acquires the lock, copies
the slot out, and releases. -/
inductive Act
  | pAcquire (f : Frame)
  | pWriteRow
  | pCommit
  | cAcquire
  | cCopyOut
  | cRelease

/-- One step of the slot model.  Every slot access requires holding the lock;
`none` means the action is not enabled in this configuration. -/
def step (c : LockConfig) (a : Act) : Option LockConfig :=
  match a with
  | Act.pAcquire f =>
      if c.writing = none ∧ c.lock = none then
        some { c with lock := some Tid.producer, writing := some (f, 0) }
      else none
  | Act.pWriteRow =>
      match c.writing, c.lock with
      | some (f, k), some Tid.producer =>
          some { c with
                 slot := some (f.take (k + 1) ++ (c.slot.getD []).drop (k + 1)),
                 writing := some (f, k + 1) }
      | _, _ => none
  | Act.pCommit =>
      match c.writing, c.lock with
      | some (f, _), some Tid.producer =>
          some { c with slot := some f, writing := none, lock := none,
                        written := f :: c.written }
      | _, _ => none
  | Act.cAcquire =>
      if c.reading = false ∧ c.lock = none then
        some { c with lock := some Tid.consumer, reading := true }
      else none
  | Act.cCopyOut =>
      if c.reading = true ∧ c.lock = some Tid.consumer then
        some { c with observed := c.slot :: c.observed }
      else none
  | Act.cRelease =>
      if c.reading = true ∧ c.lock = some Tid.consumer then
        some { c with reading := false, lock := none }
      else none

/-- Run the slot model over a schedule (an interleaving of both threads'
actions); `none` when the schedule is not executable. -/
def runLock (c : LockConfig) : List Act → Option LockConfig
  | [] => some c
  | a :: as => (step c a).bind (fun c' => runLock c' as)

/-- The slot holds no torn buffer: it is empty or a frame the producer has
fully stored. -/
def CompleteSlot (c : LockConfig) : Prop :=
  c.slot = none ∨ ∃ f ∈ c.written, c.slot = some f

/-- Inductive invariant of the slot model: the producer is mid-store exactly
when it holds the lock; outside a store the slot is complete; every copy the
consumer has taken is empty or a fully stored frame. -/
def LockInv (c : LockConfig) : Prop :=
  (c.lock = some Tid.producer ↔ c.writing ≠ none) ∧
  (c.writing = none → CompleteSlot c) ∧
  (∀ o ∈ c.observed, o = none ∨ ∃ f ∈ c.written, o = some f)

/-! # Theorems -/

/-- C1: For every frame of width `w > 0` and height `h > 0` and widget bounds
`(fw, fh)` with `fw > 1` and `fh > 1`, the render step's resize satisfies:
resulting width ≤ widget width, resulting height ≤ widget height, and the
aspect ratio is preserved up to rounding (`|new_w/new_h - w/h|` bounded by
one unit of rounding in each dimension); whenever either widget bound is ≤ 1,
no resize is attempted and the frame passes through unchanged. -/
theorem scale_to_fit_spec (w h fw fh : ℤ) (hw : 0 < w) (hh : 0 < h) :
    (1 < fw → 1 < fh →
      (update_display_resize w h fw fh).width ≤ fw ∧
      (update_display_resize w h fw fh).height ≤ fh ∧
      -h < (update_display_resize w h fw fh).width * h -
            (update_display_resize w h fw fh).height * w ∧
      (update_display_resize w h fw fh).width * h -
            (update_display_resize w h fw fh).height * w < w ∧
      (update_display_resize w h fw fh).resized = true) ∧
    (fw ≤ 1 ∨ fh ≤ 1 → update_display_resize w h fw fh = ⟨w, h, false⟩) := by
  constructor
  · intro hfw hfh
    have hw' : (0 : ℚ) < (w : ℚ) := by exact_mod_cast hw
    have hh' : (0 : ℚ) < (h : ℚ) := by exact_mod_cast hh
    have hfw' : (0 : ℚ) < (fw : ℚ) := by exact_mod_cast lt_trans one_pos hfw
    have hfh' : (0 : ℚ) < (fh : ℚ) := by exact_mod_cast lt_trans one_pos hfh
    set s : ℚ := min ((fw : ℚ) / (w : ℚ)) ((fh : ℚ) / (h : ℚ)) with hsdef
    have hs0 : 0 ≤ s :=
      le_min (le_of_lt (div_pos hfw' hw')) (le_of_lt (div_pos hfh' hh'))
    have hws : (w : ℚ) * s ≤ (fw : ℚ) := by
      have h1 : s ≤ (fw : ℚ) / (w : ℚ) := min_le_left _ _
      have h3 : ((fw : ℚ) / (w : ℚ)) * (w : ℚ) = (fw : ℚ) :=
        div_mul_cancel₀ _ (ne_of_gt hw')
      calc (w : ℚ) * s = s * (w : ℚ) := mul_comm _ _
        _ ≤ ((fw : ℚ) / (w : ℚ)) * (w : ℚ) :=
            mul_le_mul_of_nonneg_right h1 (le_of_lt hw')
        _ = (fw : ℚ) := h3
    have hhs : (h : ℚ) * s ≤ (fh : ℚ) := by
      have h1 : s ≤ (fh : ℚ) / (h : ℚ) := min_le_right _ _
      have h3 : ((fh : ℚ) / (h : ℚ)) * (h : ℚ) = (fh : ℚ) :=
        div_mul_cancel₀ _ (ne_of_gt hh')
      calc (h : ℚ) * s = s * (h : ℚ) := mul_comm _ _
        _ ≤ ((fh : ℚ) / (h : ℚ)) * (h : ℚ) :=
            mul_le_mul_of_nonneg_right h1 (le_of_lt hh')
        _ = (fh : ℚ) := h3
    have hnn1 : (0 : ℚ) ≤ (w : ℚ) * s := mul_nonneg (le_of_lt hw') hs0
    have hnn2 : (0 : ℚ) ≤ (h : ℚ) * s := mul_nonneg (le_of_lt hh') hs0
    have hcond : 1 < fw ∧ 1 < fh := ⟨hfw, hfh⟩
    simp only [update_display_resize, if_pos hcond, ← hsdef, pyInt,
      hnn1, hnn2, if_pos]
    have ha1 : (w : ℚ) * s - 1 < (⌊(w : ℚ) * s⌋ : ℚ) := Int.sub_one_lt_floor _
    have ha2 : ((⌊(w : ℚ) * s⌋ : ℚ)) ≤ (w : ℚ) * s := Int.floor_le _
    have hb1 : (h : ℚ) * s - 1 < (⌊(h : ℚ) * s⌋ : ℚ) := Int.sub_one_lt_floor _
    have hb2 : ((⌊(h : ℚ) * s⌋ : ℚ)) ≤ (h : ℚ) * s := Int.floor_le _
    refine ⟨?_, ?_, ?_, ?_, trivial⟩
    · have key : (⌊(w : ℚ) * s⌋ : ℚ) ≤ (fw : ℚ) := le_trans ha2 hws
      exact_mod_cast key
    · have key : (⌊(h : ℚ) * s⌋ : ℚ) ≤ (fh : ℚ) := le_trans hb2 hhs
      exact_mod_cast key
    · have key : -(h : ℚ) < (⌊(w : ℚ) * s⌋ : ℚ) * (h : ℚ) -
          (⌊(h : ℚ) * s⌋ : ℚ) * (w : ℚ) := by
        nlinarith [mul_lt_mul_of_pos_right ha1 hh',
          mul_le_mul_of_nonneg_right hb2 (le_of_lt hw')]
      exact_mod_cast key
    · have key : (⌊(w : ℚ) * s⌋ : ℚ) * (h : ℚ) -
          (⌊(h : ℚ) * s⌋ : ℚ) * (w : ℚ) < (w : ℚ) := by
        nlinarith [mul_le_mul_of_nonneg_right ha2 (le_of_lt hh'),
          mul_lt_mul_of_pos_right hb1 hw']
      exact_mod_cast key
  · intro hor
    have hcond : ¬(1 < fw ∧ 1 < fh) := by omega
    simp [update_display_resize, hcond]

/-- Witness for C1 at a concrete frame 4×3 and widget 10×10. -/
theorem scale_to_fit_spec_witness :
    (0 : ℤ) < 4 ∧ (0 : ℤ) < 3 ∧
    ((update_display_resize 4 3 10 10).width ≤ 10 ∧
     (update_display_resize 4 3 10 10).height ≤ 10 ∧
     -3 < (update_display_resize 4 3 10 10).width * 3 -
           (update_display_resize 4 3 10 10).height * 4 ∧
     (update_display_resize 4 3 10 10).width * 3 -
           (update_display_resize 4 3 10 10).height * 4 < 4 ∧
     (update_display_resize 4 3 10 10).resized = true) :=
  ⟨by decide, by decide,
   (scale_to_fit_spec 4 3 10 10 (by decide) (by decide)).1 (by decide) (by decide)⟩

/-- The probing loop's accumulator collects exactly the filtered indices. -/
theorem foldl_snoc_filter (p : ℕ → Bool) :
    ∀ (l acc : List ℕ),
      l.foldl (fun a i => if p i then a ++ [i] else a) acc = acc ++ l.filter p
  | [], acc => by simp
  | x :: xs, acc => by
    by_cases hx : p x
    · simp [List.foldl_cons, hx, foldl_snoc_filter p xs, List.filter_cons]
    · simp [List.foldl_cons, hx, foldl_snoc_filter p xs, List.filter_cons]

/-- A fold that appends per-index action blocks produces the concatenation
of the blocks. -/
theorem foldl_blocks_eq (g : ℕ → List CapAction) :
    ∀ (l : List ℕ) (acc : List CapAction),
      l.foldl (fun a i => a ++ g i) acc = acc ++ (l.map g).flatten
  | [], acc => by simp
  | x :: xs, acc => by simp [List.foldl_cons, foldl_blocks_eq g xs]

/-- The open attempts recorded by the probing fold, in order. -/
theorem foldl_blocks_indices (opens : ℕ → Bool) :
    ∀ (l : List ℕ) (acc : List CapAction),
      (l.foldl (fun a i => a ++ probe_block opens i) acc).filterMap probeIndex
        = acc.filterMap probeIndex ++ l
  | [], acc => by simp
  | x :: xs, acc => by
    rw [List.foldl_cons, foldl_blocks_indices opens xs]
    by_cases hx : opens x
    · simp [probe_block, probeIndex, hx, List.filterMap_cons]
    · simp [probe_block, probeIndex, hx, List.filterMap_cons]

/-- Every successfully probed index yields an adjacent open/release pair in
the probing trace. -/
theorem foldl_blocks_split (opens : ℕ → Bool) :
    ∀ (l : List ℕ) (acc : List CapAction) (i : ℕ), i ∈ l → opens i = true →
      ∃ l₁ l₂, l.foldl (fun a j => a ++ probe_block opens j) acc
        = l₁ ++ [CapAction.openDev i, CapAction.releaseDev i] ++ l₂
  | [], _, i, h, _ => absurd h (List.not_mem_nil i)
  | x :: xs, acc, i, h, hop => by
    rcases List.mem_cons.mp h with rfl | hx
    · refine ⟨acc, (xs.map (probe_block opens)).flatten, ?_⟩
      rw [List.foldl_cons, foldl_blocks_eq (probe_block opens) xs]
      simp [probe_block, hop, List.append_assoc]
    · exact foldl_blocks_split opens xs (acc ++ probe_block opens x) i hx hop

/-- C2: the enumerator probes exactly the indices 0..5 in ascending order;
its result list is exactly the subset of those indices whose open call
succeeds, listed in ascending order; and every successfully opened probe
handle is released immediately, before the next index is probed. -/
theorem enumerator_spec (opens : ℕ → Bool) :
    detect_cameras opens = (List.range 6).filter opens ∧
    (∀ i, i ∈ detect_cameras opens ↔ i < 6 ∧ opens i = true) ∧
    List.Sorted (· < ·) (detect_cameras opens) ∧
    (probe_actions opens).filterMap probeIndex = List.range 6 ∧
    (∀ i, i < 6 → opens i = true →
      ∃ l₁ l₂, probe_actions opens =
        l₁ ++ [CapAction.openDev i, CapAction.releaseDev i] ++ l₂) := by
  have hfilter : detect_cameras opens = (List.range 6).filter opens := by
    rw [detect_cameras, foldl_snoc_filter opens (List.range 6) [], List.nil_append]
  refine ⟨hfilter, ?_, ?_, ?_, ?_⟩
  · intro i
    simp [hfilter, List.mem_filter, List.mem_range]
  · rw [hfilter]
    exact List.Pairwise.sublist (List.filter_sublist _) (List.sorted_lt_range 6)
  · rw [probe_actions, foldl_blocks_indices opens (List.range 6) []]
    simp
  · intro i hi hop
    have h := foldl_blocks_split opens (List.range 6) [] i
      (List.mem_range.mpr hi) hop
    rw [probe_actions]
    exact h

/-- Witness for C2: with exactly the odd indices opening, index 1 is opened
and immediately released in the probing trace. -/
theorem enumerator_spec_witness :
    ∃ l₁ l₂, probe_actions (fun i => decide (i % 2 = 1)) =
      l₁ ++ [CapAction.openDev 1, CapAction.releaseDev 1] ++ l₂ :=
  (enumerator_spec (fun i => decide (i % 2 = 1))).2.2.2.2 1 (by decide) (by decide)

/-- C3: when no device index in 0..5 opens, the startup path reports
"No cameras detected!" and quits: no selection dialog or yes/no prompt is
shown, no capture handle is opened, and the pipeline is never started. -/
theorem no_cameras_spec (env : Env) (h : detect_cameras env.opens = []) :
    detect_and_select_camera env =
      [UiEffect.showError "No cameras detected!", UiEffect.quitApp] ∧
    UiEffect.showSelectionDialog ∉ detect_and_select_camera env ∧
    (∀ msg, UiEffect.askYesNo msg ∉ detect_and_select_camera env) ∧
    (∀ i, UiEffect.openCapture i ∉ detect_and_select_camera env) ∧
    (∀ i, UiEffect.startPipeline i ∉ detect_and_select_camera env) := by
  have hmain : detect_and_select_camera env =
      [UiEffect.showError "No cameras detected!", UiEffect.quitApp] := by
    rw [detect_and_select_camera]
    simp [h]
  exact ⟨hmain, by simp [hmain], fun msg => by simp [hmain],
    fun i => by simp [hmain], fun i => by simp [hmain]⟩

/-- Witness for C3: an environment in which no probe succeeds. -/
theorem no_cameras_spec_witness :
    detect_cameras (fun _ => false) = [] ∧
    detect_and_select_camera ⟨fun _ => false, fun _ => false, false, none⟩ =
      [UiEffect.showError "No cameras detected!", UiEffect.quitApp] :=
  ⟨rfl, (no_cameras_spec ⟨fun _ => false, fun _ => false, false, none⟩ rfl).1⟩

/-- C4: each capture-loop iteration with a successful read converts the frame
BGR→RGB and replaces the shared slot with exactly that conversion; the
`running` flag is untouched; and no horizontal mirror is applied — for an
asymmetric frame the stored value differs from the mirrored conversion. -/
theorem capture_no_mirror_spec :
    (∀ (s : SessionState) (f : Frame), s.running = true →
      (capture_step s (some f)).current_frame = some (cvtColorBGR2RGB f) ∧
      (capture_step s (some f)).running = s.running) ∧
    (∃ f : Frame, ∀ s : SessionState,
      (capture_step s (some f)).current_frame = some (cvtColorBGR2RGB f) ∧
      (capture_step s (some f)).current_frame ≠
        some (flipHorizontal (cvtColorBGR2RGB f))) := by
  constructor
  · intro s f _
    exact ⟨rfl, rfl⟩
  · refine ⟨[[(0, 0, 0), (0, 0, 1)]], fun s => ⟨rfl, ?_⟩⟩
    intro hcontra
    have : cvtColorBGR2RGB [[(0, 0, 0), (0, 0, 1)]] =
        flipHorizontal (cvtColorBGR2RGB [[(0, 0, 0), (0, 0, 1)]]) := by
      have h := hcontra
      simp only [capture_step] at h
      exact Option.some.inj h
    exact absurd this (by decide)

/-- Witness for C4 at a concrete one-pixel frame. -/
theorem capture_no_mirror_spec_witness :
    (capture_step ⟨true, true, none⟩ (some [[(1, 2, 3)]])).current_frame =
      some (cvtColorBGR2RGB [[(1, 2, 3)]]) :=
  (capture_no_mirror_spec.1 ⟨true, true, none⟩ [[(1, 2, 3)]] rfl).1

/-- C5: `on_closing` sets the running flag to false (exactly one such action
appears in its trace), releases the capture handle exactly once when a handle
is held, with the flag cleared before the release; afterwards the capture
loop's guard fails and a render tick returns without rescheduling. -/
theorem on_closing_spec (s : SessionState) (_hr : s.running = true)
    (hc : s.capOpen = true) :
    (on_closing s).1.running = false ∧
    (on_closing s).2.count CloseEffect.setRunningFalse = 1 ∧
    (on_closing s).2.count CloseEffect.releaseCap = 1 ∧
    (on_closing s).2 =
      [CloseEffect.setRunningFalse, CloseEffect.releaseCap,
       CloseEffect.destroyWindow] ∧
    capture_loop_guard (on_closing s).1 = false ∧
    (∀ fw fh : ℤ, update_display (on_closing s).1 fw fh = RenderStep.stop) := by
  have htr : (on_closing s).2 =
      [CloseEffect.setRunningFalse, CloseEffect.releaseCap,
       CloseEffect.destroyWindow] := by
    simp [on_closing, hc]
  refine ⟨rfl, ?_, ?_, htr, rfl, ?_⟩
  · rw [htr]; decide
  · rw [htr]; decide
  · intro fw fh
    rfl

/-- Witness for C5 at a running session holding a capture handle. -/
theorem on_closing_spec_witness :
    (on_closing ⟨true, true, none⟩).2.count CloseEffect.releaseCap = 1 :=
  (on_closing_spec ⟨true, true, none⟩ rfl rfl).2.2.1

/-- The slot after a run of the capture loop holds the conversion of the last
successfully read frame, or the initial slot content when every read failed;
the other session fields are untouched. -/
theorem run_capture_getLast (s : SessionState) (reads : List (Option Frame)) :
    (run_capture s reads).current_frame =
      ((reads.filterMap id).getLast?).elim s.current_frame
        (fun f => some (cvtColorBGR2RGB f)) ∧
    (run_capture s reads).running = s.running ∧
    (run_capture s reads).capOpen = s.capOpen := by
  induction reads using List.reverseRecOn with
  | nil => simp [run_capture]
  | append_singleton l r ih =>
    cases r with
    | none =>
      simpa [run_capture, List.foldl_append, capture_step,
        List.filterMap_append] using ih
    | some f =>
      simp [run_capture, List.foldl_append, capture_step,
        List.filterMap_append, List.getLast?_concat]
      exact ⟨ih.2.1, ih.2.2⟩

/-- C6: the shared slot holds at most one frame (it is an `Option`, not a
queue): a producer write replaces the content independently of what was
there, and after any capture run the consumer sees either the initial
content (nothing yet) or exactly the most recently captured frame. -/
theorem latest_frame_slot_spec :
    (∀ (s : SessionState) (f : Frame),
      (capture_step s (some f)).current_frame = some (cvtColorBGR2RGB f)) ∧
    (∀ (s : SessionState) (reads : List (Option Frame)),
      (run_capture s reads).current_frame =
        ((reads.filterMap id).getLast?).elim s.current_frame
          (fun f => some (cvtColorBGR2RGB f))) :=
  ⟨fun _ _ => rfl, fun s reads => (run_capture_getLast s reads).1⟩

/-- C7: a failed read leaves the session state — in particular the shared
slot — completely unchanged, surfaces nothing, and the loop simply goes
around again: appending a failed read to any capture run is a no-op. -/
theorem read_failure_spec :
    (∀ s : SessionState, capture_step s none = s) ∧
    (∀ (s : SessionState) (reads : List (Option Frame)),
      run_capture s (reads ++ [none]) = run_capture s reads) :=
  ⟨fun _ => rfl,
   fun s reads => by simp [run_capture, List.foldl_append, capture_step]⟩

/-- C9: the horizontal mirror of the synchronous variant is an involution —
applying it twice reproduces the original frame bit-for-bit. -/
theorem mirror_involution (f : Frame) : flipHorizontal (flipHorizontal f) = f := by
  simp [flipHorizontal, List.map_map, Function.comp_def]

/-- C10: the shared slot is empty at construction, becomes non-empty exactly
when some read succeeds, is never reset to empty by further capture
iterations, and a render tick of a running session with a non-empty slot
never takes the "no frame yet" branch. -/
theorem slot_never_resets_spec :
    initState.current_frame = none ∧
    (∀ (s : SessionState) (reads : List (Option Frame)),
      s.current_frame ≠ none → (run_capture s reads).current_frame ≠ none) ∧
    (∀ reads : List (Option Frame),
      ((run_capture initState reads).current_frame ≠ none ↔
        ∃ f : Frame, some f ∈ reads)) ∧
    (∀ (s : SessionState) (fw fh : ℤ), s.running = true →
      s.current_frame ≠ none →
      update_display s fw fh ≠ RenderStep.noFrameYet) := by
  refine ⟨rfl, ?_, ?_, ?_⟩
  · intro s reads hs
    rw [(run_capture_getLast s reads).1]
    cases h : (reads.filterMap id).getLast? with
    | none => simpa using hs
    | some f => simp
  · intro reads
    rw [(run_capture_getLast initState reads).1]
    cases h : (reads.filterMap id).getLast? with
    | none =>
      have hnil : reads.filterMap id = [] := List.getLast?_eq_none_iff.mp h
      simp only [Option.elim_none, initState, ne_eq, not_true_eq_false,
        false_iff]
      intro hex
      rcases hex with ⟨f, hf⟩
      have hmem : f ∈ reads.filterMap id :=
        List.mem_filterMap.mpr ⟨some f, hf, rfl⟩
      rw [hnil] at hmem
      exact List.not_mem_nil f hmem
    | some f =>
      simp only [Option.elim_some, ne_eq, Option.some_ne_none,
        not_false_eq_true, true_iff]
      have hmem : f ∈ reads.filterMap id := List.mem_of_getLast?_eq_some h
      rcases List.mem_filterMap.mp hmem with ⟨o, ho, hid⟩
      cases o with
      | none => exact absurd hid (by simp)
      | some g =>
        have : g = f := by simpa using hid
        exact ⟨f, this ▸ ho⟩
  · intro s fw fh hr hcf
    cases hcur : s.current_frame with
    | none => exact absurd hcur hcf
    | some f => simp [update_display, hr, hcur]

/-- Witness for C10: a running session whose slot already holds a frame. -/
theorem slot_never_resets_witness :
    update_display ⟨true, true, some [[(1, 2, 3)]]⟩ 100 100 ≠
      RenderStep.noFrameYet :=
  slot_never_resets_spec.2.2.2 ⟨true, true, some [[(1, 2, 3)]]⟩ 100 100 rfl
    (by simp)

/-- Every enabled step of the slot model preserves the lock invariant. -/
theorem step_preserves_inv {c c' : LockConfig} {a : Act}
    (hinv : LockInv c) (hstep : step c a = some c') : LockInv c' := by
  obtain ⟨h1, h2, h3⟩ := hinv
  cases a with
  | pAcquire f =>
    by_cases hcond : c.writing = none ∧ c.lock = none
    · simp only [step, if_pos hcond] at hstep
      injection hstep with h
      subst h
      exact ⟨by simp, by simp, h3⟩
    · simp [step, if_neg hcond] at hstep
  | pWriteRow =>
    rcases hw : c.writing with _ | ⟨f, k⟩
    · simp [step, hw] at hstep
    · rcases hl : c.lock with _ | t
      · simp [step, hw, hl] at hstep
      · cases t with
        | consumer => simp [step, hw, hl] at hstep
        | producer =>
          simp only [step, hw, hl] at hstep
          injection hstep with h
          subst h
          exact ⟨by simp [hl], by simp, h3⟩
  | pCommit =>
    rcases hw : c.writing with _ | ⟨f, k⟩
    · simp [step, hw] at hstep
    · rcases hl : c.lock with _ | t
      · simp [step, hw, hl] at hstep
      · cases t with
        | consumer => simp [step, hw, hl] at hstep
        | producer =>
          simp only [step, hw, hl] at hstep
          injection hstep with h
          subst h
          refine ⟨by simp, ?_, ?_⟩
          · intro _
            exact Or.inr ⟨f, List.mem_cons_self f c.written, rfl⟩
          · intro o ho
            rcases h3 o ho with hn | ⟨g, hg, hog⟩
            · exact Or.inl hn
            · exact Or.inr ⟨g, List.mem_cons_of_mem f hg, hog⟩
  | cAcquire =>
    by_cases hcond : c.reading = false ∧ c.lock = none
    · simp only [step, if_pos hcond] at hstep
      injection hstep with h
      subst h
      obtain ⟨hr', hl⟩ := hcond
      have hwnone : c.writing = none := by
        by_contra hW
        have hlp := h1.mpr hW
        rw [hl] at hlp
        exact absurd hlp (by simp)
      exact ⟨by simp [hwnone], fun _ => h2 hwnone, h3⟩
    · simp [step, if_neg hcond] at hstep
  | cCopyOut =>
    by_cases hcond : c.reading = true ∧ c.lock = some Tid.consumer
    · simp only [step, if_pos hcond] at hstep
      injection hstep with h
      subst h
      obtain ⟨hr', hl⟩ := hcond
      have hwnone : c.writing = none := by
        by_contra hW
        have hlp := h1.mpr hW
        rw [hl] at hlp
        have := Option.some.inj hlp
        exact absurd this (by simp)
      refine ⟨by simp [hl, hwnone], fun _ => h2 hwnone, ?_⟩
      intro o ho
      rcases List.mem_cons.mp ho with rfl | hmem
      · exact h2 hwnone
      · exact h3 o hmem
    · simp [step, if_neg hcond] at hstep
  | cRelease =>
    by_cases hcond : c.reading = true ∧ c.lock = some Tid.consumer
    · simp only [step, if_pos hcond] at hstep
      injection hstep with h
      subst h
      obtain ⟨hr', hl⟩ := hcond
      have hwnone : c.writing = none := by
        by_contra hW
        have hlp := h1.mpr hW
        rw [hl] at hlp
        have := Option.some.inj hlp
        exact absurd this (by simp)
      exact ⟨by simp [hwnone], fun _ => h2 hwnone, h3⟩
    · simp [step, if_neg hcond] at hstep

/-- Any executable schedule keeps the lock invariant. -/
theorem runLock_inv :
    ∀ {c : LockConfig}, LockInv c →
      ∀ (acts : List Act) (c' : LockConfig), runLock c acts = some c' → LockInv c'
  | _, hinv, [], _, h => by
    rw [runLock] at h
    cases h
    exact hinv
  | c, hinv, a :: as, c', h => by
    rw [runLock] at h
    cases hstep : step c a with
    | none => rw [hstep] at h; simp at h
    | some c₁ =>
      rw [hstep] at h
      simp only [Option.some_bind] at h
      exact runLock_inv (step_preserves_inv hinv hstep) as c' h

/-- The initial configuration satisfies the lock invariant. -/
theorem initLock_inv : LockInv initLock :=
  ⟨by simp [initLock], fun _ => Or.inl rfl, by simp [initLock]⟩

/-- C8: in the slot model — where the producer's store is decomposed into
row-sized sub-steps and both critical sections are guarded by the lock —
every copy the consumer takes of the shared slot is either empty or a frame
the producer had fully stored: no interleaving yields a torn buffer. -/
theorem lock_atomicity (acts : List Act) (c : LockConfig)
    (h : runLock initLock acts = some c) :
    ∀ o ∈ c.observed, o = none ∨ ∃ f ∈ c.written, o = some f :=
  (runLock_inv initLock_inv acts c h).2.2

/-- Witness for C8: after a full producer store followed by a consumer copy,
the one copy the consumer took is a fully stored frame. -/
theorem lock_atomicity_witness :
    (some [[((1 : ℕ), 1, 1)]] : Option Frame) = none ∨
      ∃ f ∈ ([[[((1 : ℕ), 1, 1)]]] : List Frame),
        (some [[((1 : ℕ), 1, 1)]] : Option Frame) = some f :=
  lock_atomicity
    [Act.pAcquire [[(1, 1, 1)]], Act.pWriteRow, Act.pCommit,
     Act.cAcquire, Act.cCopyOut, Act.cRelease]
    (LockConfig.mk (some [[(1, 1, 1)]]) none none false
      [[[(1, 1, 1)]]] [some [[(1, 1, 1)]]])
    (by decide) (some [[(1, 1, 1)]]) (by decide)

end VideoMirror
